import Mathlib

/-!
# Verification of the `Recorder` animation-recording controller

Shallow embedding of the `Recorder` class of this repository (the screen
recording controller synchronized to animation loops): capability probing
and codec negotiation at construction, the `startRecording` /
`stopRecording` / `toggleRecording` lifecycle with its popup notifications,
the `onstop` finalization handler (artifact assembly, filename derivation,
download, completion-promise resolution), and the `recordAnimation`
frame-callback synchronization state machine.

Modelling conventions:
* a media chunk is represented by its byte size (a `Nat`), since the code
  only inspects `e.data.size`;
* outward calls to the browser (starting or stopping the media recorder,
  showing or hiding the popup, scheduling the popup auto-hide timeout,
  triggering the download, resolving the pending completion promise) are
  recorded as `Event`s so that theorems can speak about which external
  effects an operation performs and in which order;
* animation-clock time is `ℚ` (the code compares `action.time + 1.0/60`
  with the clip duration);
* the per-frame `requestAnimationFrame` scheduling is modelled by running
  one `frameStep` per frame index: the deferred stop closure registered on
  the previous frame runs first (it was registered before the frame
  callback re-registered itself, and the host runs callbacks in
  registration order), then the frame callback body, if it re-registered
  itself at the end of the previous frame.
-/

namespace GaussianVRM

/-- The avatar character, as far as the recorder reads it:
`gvrm.character.animationUrl`.  A JS `undefined` / absent value is `none`. -/
structure Character where
  animationUrl : Option String
  deriving DecidableEq

/-- The avatar object handed to the recorder by `setGVRM`, as far as the
recorder reads it: `gvrm.fileName` and `gvrm.character`. -/
structure GVRM where
  fileName : Option String
  character : Option Character
  deriving DecidableEq

/-- The popup DOM element created by `showPopup(message, isRecording)`.
`isRec` is the `isRecording` argument: it selects the red background and,
when `false`, a 2-second auto-hide timeout is scheduled. -/
structure Popup where
  message : String
  isRec : Bool
  deriving DecidableEq

/-- Outward effects of the controller on its collaborators, in the order
they are performed. -/
inductive Event where
  /-- `mediaRecorder.start()` -/
  | mediaStart
  /-- `mediaRecorder.stop()` -/
  | mediaStop
  /-- the popup element is appended to the document -/
  | popupShown (message : String) (isRec : Bool)
  /-- `setTimeout(hidePopup, 2000)` is scheduled (only when not recording) -/
  | scheduleAutoHide
  /-- the popup element is removed from the document -/
  | popupHidden
  /-- the blob assembled from the buffered chunks is downloaded under the
  given filename (`a.click()`) -/
  | download (blob : List Nat) (filename : String)
  /-- the pending `recordAnimation` completion promise is resolved -/
  | resolve
  deriving DecidableEq

/-- The state of a `Recorder` instance. -/
structure Recorder where
  isSupported : Bool
  isRecording : Bool
  /-- `this.popup`: the currently displayed popup element, if any -/
  popup : Option Popup
  /-- `options.mimeType`: the codec negotiated at construction -/
  mimeType : Option String
  /-- the constructor-closure variable `recordedChunks`: the buffer that
  `mediaRecorder.ondataavailable` pushes into and `mediaRecorder.onstop`
  assembles and clears -/
  chunksClosure : List Nat
  /-- the instance property `this.recordedChunks`.  The constructor aliases
  it to the closure array, and `startRecording` reassigns it to a fresh
  array; no code ever reads it back, so it is modelled as an independent
  snapshot list -/
  recordedChunksProp : List Nat
  /-- `this.currentRecordingResolve`: whether a completion promise of a
  `recordAnimation` run is stored (the resolver slot is occupied) -/
  currentRecordingResolve : Bool
  /-- `this.gvrm`, set by `setGVRM` -/
  gvrm : Option GVRM
  deriving DecidableEq

/-- The host capability probe available to the constructor:
`window.MediaRecorder` existence and `MediaRecorder.isTypeSupported`. -/
structure Support where
  hasMediaRecorder : Bool
  isTypeSupported : String → Bool

/-- The codec negotiation chain of the constructor:
`video/mp4`, else `video/webm;codecs=h264`, else `video/webm`, else none. -/
def negotiateMime (isTypeSupported : String → Bool) : Option String :=
  if isTypeSupported "video/mp4" then some "video/mp4"
  else if isTypeSupported "video/webm;codecs=h264" then some "video/webm;codecs=h264"
  else if isTypeSupported "video/webm" then some "video/webm"
  else none

/-- A recorder with every field at its initial (or, for the unsupported
early-return path, never-assigned) value. -/
def emptyRecorder : Recorder :=
  { isSupported := false, isRecording := false, popup := none, mimeType := none,
    chunksClosure := [], recordedChunksProp := [],
    currentRecordingResolve := false, gvrm := none }

/-- The `Recorder` constructor.  It first requires `window.MediaRecorder`
and `MediaRecorder.isTypeSupported("video/webm")` (early return with
`isSupported = false` otherwise), then negotiates the codec; if no codec in
the preference chain is supported it also ends unsupported. -/
def mkRecorder (s : Support) : Recorder :=
  if !s.hasMediaRecorder || !s.isTypeSupported "video/webm" then
    emptyRecorder
  else
    match negotiateMime s.isTypeSupported with
    | some m => { emptyRecorder with isSupported := true, mimeType := some m }
    | none => emptyRecorder

/-- `hidePopup()`: removes the popup element if one is displayed. -/
def hidePopup (r : Recorder) : Recorder × List Event :=
  if r.popup.isSome then ({ r with popup := none }, [Event.popupHidden])
  else (r, [])

/-- `showPopup(message, isRecording)`: removes any existing popup, creates
and appends the new one, and schedules the 2-second auto-hide timeout only
when `isRec` is false. -/
def showPopup (r : Recorder) (message : String) (isRec : Bool) : Recorder × List Event :=
  let q := hidePopup r
  ({ q.1 with popup := some { message := message, isRec := isRec } },
   q.2 ++ [Event.popupShown message isRec] ++
     (if isRec then [] else [Event.scheduleAutoHide]))

/-- `mediaRecorder.ondataavailable`: push the chunk into the closure buffer
when its size is positive. -/
def ondataavailable (r : Recorder) (size : Nat) : Recorder :=
  if 0 < size then { r with chunksClosure := r.chunksClosure ++ [size] } else r

/-- `startRecording()`: no-op unless supported and not recording; otherwise
reassigns `this.recordedChunks` to a fresh array (note: the closure buffer
used by `ondataavailable` and `onstop` is a different binding and is left
untouched), starts the media recorder, sets `isRecording`, and shows the
persistent recording popup. -/
def startRecording (r : Recorder) : Recorder × List Event :=
  if !r.isSupported || r.isRecording then (r, [])
  else
    let r1 : Recorder := { r with recordedChunksProp := [], isRecording := true }
    let p := showPopup r1 "● Recording..." true
    (p.1, Event.mediaStart :: p.2)

/-- `stopRecording()`: no-op unless supported and recording; otherwise
stops the media recorder, clears `isRecording`, hides the recording popup
and shows the transient stopped popup (which auto-hides). -/
def stopRecording (r : Recorder) : Recorder × List Event :=
  if !r.isSupported || !r.isRecording then (r, [])
  else
    let q := hidePopup { r with isRecording := false }
    let p := showPopup q.1 "Recording stopped" false
    (p.1, Event.mediaStop :: (q.2 ++ p.2))

/-- `toggleRecording()`: dispatch on `isRecording`, no-op when unsupported. -/
def toggleRecording (r : Recorder) : Recorder × List Event :=
  if !r.isSupported then (r, [])
  else if r.isRecording then stopRecording r else startRecording r

/-- `setGVRM(gvrm)`. -/
def setGVRM (r : Recorder) (g : GVRM) : Recorder :=
  { r with gvrm := some g }

/-- JS `String.prototype.split` with a one-character separator, on the
character list of the string: `"a/b".split('/')` gives `["a", "b"]`,
`"".split('/')` gives `[""]`, and separators at either end produce empty
components, exactly as in JS.  The result is always nonempty, so the JS
`pop()` / `shift()` on it are total. -/
def splitOnChar (sep : Char) : List Char → List (List Char)
  | [] => [[]]
  | c :: cs =>
    let r := splitOnChar sep cs
    if c == sep then [] :: r
    else
      match r with
      | [] => [[c]]
      | h :: t => (c :: h) :: t

/-- `sub` is a character-wise prefix of `l`. -/
def charListLeads : List Char → List Char → Bool
  | [], _ => true
  | _ :: _, [] => false
  | a :: as, b :: bs => a == b && charListLeads as bs

/-- `sub` occurs as a contiguous subsequence of `l`. -/
def charListContains (sub : List Char) : List Char → Bool
  | [] => sub.isEmpty
  | l@(_ :: rest) => charListLeads sub l || charListContains sub rest

/-- JS `path.split('/').pop().split('.').shift()`: last path component,
stripped of everything from the first dot on. -/
def baseName (path : String) : String :=
  String.mk ((splitOnChar '.' ((splitOnChar '/' path.data).getLastD [])).headD [])

/-- The filename base derived in `mediaRecorder.onstop`.  A JS-falsy
`fileName` / `character` / `animationUrl` is modelled as `none`. -/
def deriveFilename (gvrm : Option GVRM) : String :=
  match gvrm with
  | none => "recording"
  | some g =>
    match g.fileName with
    | none => "recording"
    | some fn =>
      let gvrmFileName := baseName fn
      match g.character with
      | none => "recording_" ++ gvrmFileName
      | some ch =>
        match ch.animationUrl with
        | none => "recording_" ++ gvrmFileName
        | some au => "recording_" ++ gvrmFileName ++ "_" ++ baseName au

/-- JS `s.includes(sub)`: `sub` occurs as a substring of `s`. -/
def stringIncludes (s sub : String) : Bool :=
  charListContains sub.data s.data

/-- The file extension chosen in `onstop`:
`options.mimeType && options.mimeType.includes("mp4") ? "mp4" : "webm"`. -/
def fileExtOf (mimeType : Option String) : String :=
  match mimeType with
  | some m => if stringIncludes m "mp4" then "mp4" else "webm"
  | none => "webm"

/-- `mediaRecorder.onstop`: assemble the closure chunk buffer into a blob,
derive the filename, trigger the download, clear the closure buffer, and
resolve and clear the pending completion promise if one is stored. -/
def onstopHandler (r : Recorder) : Recorder × List Event :=
  let fileExt := fileExtOf r.mimeType
  let blob := r.chunksClosure
  let filename := deriveFilename r.gvrm
  let r1 : Recorder := { r with chunksClosure := [] }
  if r1.currentRecordingResolve then
    ({ r1 with currentRecordingResolve := false },
     [Event.download blob (filename ++ "." ++ fileExt), Event.resolve])
  else
    (r1, [Event.download blob (filename ++ "." ++ fileExt)])

/-- The state of one `recordAnimation` frame-polling run.  The flags mirror
the closure variables of the source; `startFrame`, `scheduleFrame` and
`stopExecFrame` are observation-only fields recording the frame index at
which `startRecording` was called, at which the deferred stop was first
registered, and at which `stopRecording` first ran; they do not influence
the dynamics. -/
structure LoopState where
  recorder : Recorder
  recording1Started : Bool
  recording2Started : Bool
  recordingFinished : Bool
  frameCount2 : Nat
  /-- a deferred stop closure registered via `requestAnimationFrame` on the
  previous frame is waiting to run on this frame -/
  stopPending : Bool
  /-- the frame callback re-registered itself for the coming frame -/
  callbackActive : Bool
  events : List Event
  startFrame : Option Nat
  scheduleFrame : Option Nat
  stopExecFrame : Option Nat
  deriving DecidableEq

/-- The deferred `requestAnimationFrame(() => { stopRecording(); ... })`
closure, run at the start of the frame following its registration (it was
registered before the frame callback re-registered itself). -/
def pendingPhase (n : Nat) (s : LoopState) : LoopState :=
  if s.stopPending then
    { s with recorder := (stopRecording s.recorder).1,
             events := s.events ++ (stopRecording s.recorder).2,
             recordingFinished := true, stopPending := false,
             stopExecFrame := match s.stopExecFrame with
                              | none => some n
                              | some e => some e }
  else s

/-- The body of `frameCallback` at frame `n`, given clip duration `D` and
animation-clock trace `t`. -/
def callbackBody (t : Nat → ℚ) (D : ℚ) (n : Nat) (s : LoopState) : LoopState :=
  if !s.recording1Started then
    if t n + 1/60 ≥ D then
      { s with recorder := (startRecording s.recorder).1,
               events := s.events ++ (startRecording s.recorder).2,
               recording1Started := true, startFrame := some n }
    else s
  else if !s.recording2Started then
    { s with recording2Started := true }
  else
    let s1 : LoopState := { s with frameCount2 := s.frameCount2 + 1 }
    if (t n + 1/60 ≥ D) ∧ 5 < s1.frameCount2 then
      { s1 with stopPending := true,
                scheduleFrame := match s1.scheduleFrame with
                                 | none => some n
                                 | some m => some m }
    else s1

/-- One frame of the `recordAnimation` polling loop: the deferred stop
closure (if registered) runs first, then the frame callback body if it
re-registered itself at the end of the previous frame; the callback
re-registers itself exactly when `recordingFinished` is still false. -/
def frameStep (t : Nat → ℚ) (D : ℚ) (n : Nat) (s : LoopState) : LoopState :=
  let s1 := pendingPhase n s
  if s1.callbackActive then
    let s2 := callbackBody t D n s1
    { s2 with callbackActive := !s2.recordingFinished }
  else s1

/-- Run the polling loop over frames `0, 1, …, n-1`. -/
def runLoop (t : Nat → ℚ) (D : ℚ) : Nat → LoopState → LoopState
  | 0, s => s
  | Nat.succ n, s => frameStep t D n (runLoop t D n s)

/-- The loop state at the moment `recordAnimation` registers the first
`requestAnimationFrame(frameCallback)`. -/
def initLoop (r : Recorder) : LoopState :=
  { recorder := r, recording1Started := false, recording2Started := false,
    recordingFinished := false, frameCount2 := 0, stopPending := false,
    callbackActive := true, events := [],
    startFrame := none, scheduleFrame := none, stopExecFrame := none }

/-- The outcome of a `recordAnimation` call: the recorder afterwards, the
outward events, the final loop state when the polling loop ran, and whether
the returned promise was the immediately-resolved one of the guard path. -/
structure RAResult where
  recorder : Recorder
  events : List Event
  loopState : Option LoopState
  immediate : Bool
  deriving DecidableEq

/-- `recordAnimation(animationUrl)`: immediately-resolved no-op when
unsupported or no avatar is attached; otherwise store the completion
resolver in `currentRecordingResolve` and run the frame-polling state
machine (here for `frames` polled frames over the clock trace `t` with
clip duration `D`). -/
def recordAnimation (r : Recorder) (t : Nat → ℚ) (D : ℚ) (frames : Nat) : RAResult :=
  if !r.isSupported || r.gvrm.isNone then
    { recorder := r, events := [], loopState := none, immediate := true }
  else
    let armed : Recorder := { r with currentRecordingResolve := true }
    let final := runLoop t D frames (initLoop armed)
    { recorder := final.recorder, events := final.events, loopState := some final,
      immediate := false }

/-- The codec preference order as the specification words it: the container
with an explicit codec variant first ("format A with codec variant 1",
which in this codebase is the only probed mime type carrying a `codecs=`
parameter), then the same container plain, then the other container plain.
This definition follows the words of the spec, for comparison with the
`negotiateMime` chain taken from the source. -/
def specNegotiate (isTypeSupported : String → Bool) : Option String :=
  if isTypeSupported "video/webm;codecs=h264" then some "video/webm;codecs=h264"
  else if isTypeSupported "video/webm" then some "video/webm"
  else if isTypeSupported "video/mp4" then some "video/mp4"
  else none

/-! ## Concrete instances used by witnesses and counterexamples -/

/-- An animation clock looping every 6 frames with frame delta `1/60`
(clip duration `1/10` second): `0, 1/60, …, 5/60, 0, 1/60, …`. -/
def tEx (n : Nat) : ℚ := ((n % 6 : Nat) : ℚ) / 60

/-- A host where every probed capability is available. -/
def fullSupport : Support :=
  { hasMediaRecorder := true, isTypeSupported := fun _ => true }

/-- A host with no `MediaRecorder` at all. -/
def noSupport : Support :=
  { hasMediaRecorder := false, isTypeSupported := fun _ => false }

/-- A host supporting only the `video/mp4` container. -/
def mp4OnlySupport : Support :=
  { hasMediaRecorder := true, isTypeSupported := fun m => m == "video/mp4" }

/-- A host supporting only plain `video/webm`. -/
def webmOnlySupport : Support :=
  { hasMediaRecorder := true, isTypeSupported := fun m => m == "video/webm" }

/-- The avatar of the filename-derivation scenario. -/
def gvrmEx : GVRM :=
  { fileName := some "a/sample1.gvrm",
    character := some { animationUrl := some "a/Idle.fbx" } }

/-- A freshly constructed supported recorder with the avatar attached. -/
def recEx : Recorder := setGVRM (mkRecorder fullSupport) gvrmEx

/-- A freshly constructed supported recorder (not recording). -/
def idleRecorder : Recorder := mkRecorder fullSupport

/-- The recorder right after `startRecording` (recording). -/
def recRecorder : Recorder := (startRecording idleRecorder).1

/-- A supported idle recorder whose closure chunk buffer still holds a
stale chunk from before (finalization has not consumed it). -/
def staleRecorder : Recorder :=
  { mkRecorder webmOnlySupport with chunksClosure := [7] }

/-- A recorder amid a `recordAnimation` run: the completion promise is
stored in the resolver slot. -/
def armedRecorder : Recorder :=
  { recEx with currentRecordingResolve := true }

/-- Inductive invariant of the `recordAnimation` polling loop after `n`
processed frames.  `σ.startFrame`, `σ.scheduleFrame` and `σ.stopExecFrame`
record the first frame at which capture started, at which the deferred stop
was first registered, and at which the deferred stop first ran. -/
structure LoopInv (t : Nat → ℚ) (D : ℚ) (n : Nat) (σ : LoopState) : Prop where
  started_iff : σ.recording1Started = σ.startFrame.isSome
  before_start : σ.startFrame = none →
    σ.recording2Started = false ∧ σ.frameCount2 = 0 ∧ σ.stopPending = false ∧
    σ.scheduleFrame = none ∧ σ.stopExecFrame = none ∧
    σ.recordingFinished = false ∧ σ.callbackActive = true ∧
    ∀ j, j < n → ¬ (t j + 1/60 ≥ D)
  start_spec : ∀ k, σ.startFrame = some k →
    k < n ∧ (t k + 1/60 ≥ D) ∧ (∀ j, j < k → ¬ (t j + 1/60 ≥ D)) ∧
    (σ.recording2Started = true ↔ k + 2 ≤ n) ∧
    (σ.recording2Started = false → σ.frameCount2 = 0) ∧
    (σ.recording2Started = true → σ.frameCount2 + (k + 2) ≤ n)
  sched_spec : ∀ s, σ.scheduleFrame = some s →
    s < n ∧ (t s + 1/60 ≥ D) ∧ ∃ k, σ.startFrame = some k ∧ k + 7 ≤ s
  pending_sched : σ.stopPending = true → σ.scheduleFrame.isSome = true
  sched_pending : ∀ s, σ.scheduleFrame = some s → σ.stopExecFrame = none →
    σ.stopPending = true ∧ s + 1 = n
  exec_spec : ∀ e, σ.stopExecFrame = some e →
    ∃ s, σ.scheduleFrame = some s ∧ e = s + 1 ∧ e ≤ n
  finished_exec : σ.recordingFinished = true → σ.stopExecFrame.isSome = true
  inactive_finished : σ.callbackActive = false → σ.recordingFinished = true

/-! ## Helper lemmas about the recording lifecycle operations -/

theorem hidePopup_fst (r : Recorder) : (hidePopup r).1 = { r with popup := none } := by
  cases r with
  | mk a b p c d e f g =>
    unfold hidePopup
    cases p <;> simp

theorem showPopup_fst (r : Recorder) (m : String) (b : Bool) :
    (showPopup r m b).1 = { r with popup := some { message := m, isRec := b } } := by
  unfold showPopup hidePopup
  split <;> rfl

theorem startRecording_fst (r : Recorder) (hs : r.isSupported = true)
    (hr : r.isRecording = false) :
    (startRecording r).1 =
      { r with recordedChunksProp := [], isRecording := true,
               popup := some { message := "● Recording...", isRec := true } } := by
  unfold startRecording
  simp [hs, hr, showPopup_fst]

theorem stopRecording_fst (r : Recorder) (hs : r.isSupported = true)
    (hr : r.isRecording = true) :
    (stopRecording r).1 =
      { r with isRecording := false,
               popup := some { message := "Recording stopped", isRec := false } } := by
  unfold stopRecording
  simp [hs, hr, showPopup_fst, hidePopup_fst]

theorem startRecording_resolve_eq (r : Recorder) :
    (startRecording r).1.currentRecordingResolve = r.currentRecordingResolve := by
  unfold startRecording
  split
  · rfl
  · simp [showPopup_fst]

theorem stopRecording_resolve_eq (r : Recorder) :
    (stopRecording r).1.currentRecordingResolve = r.currentRecordingResolve := by
  unfold stopRecording hidePopup
  split
  · rfl
  · split <;> simp [showPopup_fst]

theorem showPopup_no_resolve (r : Recorder) (m : String) (b : Bool) :
    Event.resolve ∉ (showPopup r m b).2 := by
  unfold showPopup hidePopup
  split <;> split <;> simp

theorem startRecording_no_resolve (r : Recorder) :
    Event.resolve ∉ (startRecording r).2 := by
  unfold startRecording
  split
  · simp
  · simpa using showPopup_no_resolve _ "● Recording..." true

theorem hidePopup_no_resolve (r : Recorder) :
    Event.resolve ∉ (hidePopup r).2 := by
  unfold hidePopup
  split <;> simp

theorem stopRecording_no_resolve (r : Recorder) :
    Event.resolve ∉ (stopRecording r).2 := by
  unfold stopRecording
  split
  · simp
  · simp [hidePopup_no_resolve, showPopup_no_resolve]

theorem startRecording_noop (r : Recorder)
    (h : r.isSupported = false ∨ r.isRecording = true) :
    startRecording r = (r, []) := by
  unfold startRecording
  rcases h with h | h <;> simp [h]

theorem stopRecording_noop (r : Recorder)
    (h : r.isSupported = false ∨ r.isRecording = false) :
    stopRecording r = (r, []) := by
  unfold stopRecording
  rcases h with h | h <;> simp [h]

theorem pendingPhase_resolve_eq (n : Nat) (σ : LoopState) :
    (pendingPhase n σ).recorder.currentRecordingResolve =
      σ.recorder.currentRecordingResolve := by
  unfold pendingPhase
  split <;> simp [stopRecording_resolve_eq]

theorem callbackBody_resolve_eq (t : Nat → ℚ) (D : ℚ) (n : Nat) (σ : LoopState) :
    (callbackBody t D n σ).recorder.currentRecordingResolve =
      σ.recorder.currentRecordingResolve := by
  unfold callbackBody
  split
  · split
    · simp [startRecording_resolve_eq]
    · rfl
  · split
    · rfl
    · dsimp only
      split <;> rfl

theorem frameStep_resolve_eq (t : Nat → ℚ) (D : ℚ) (n : Nat) (σ : LoopState) :
    (frameStep t D n σ).recorder.currentRecordingResolve =
      σ.recorder.currentRecordingResolve := by
  unfold frameStep
  dsimp only
  split
  · simp [callbackBody_resolve_eq, pendingPhase_resolve_eq]
  · exact pendingPhase_resolve_eq n σ

theorem runLoop_resolve_eq (t : Nat → ℚ) (D : ℚ) (n : Nat) (σ : LoopState) :
    (runLoop t D n σ).recorder.currentRecordingResolve =
      σ.recorder.currentRecordingResolve := by
  induction n with
  | zero => rfl
  | succ n ih =>
    have hs : runLoop t D (n + 1) σ = frameStep t D n (runLoop t D n σ) := rfl
    rw [hs, frameStep_resolve_eq, ih]

theorem pendingPhase_no_resolve (n : Nat) (σ : LoopState)
    (h : Event.resolve ∉ σ.events) : Event.resolve ∉ (pendingPhase n σ).events := by
  unfold pendingPhase
  split
  · simp [List.mem_append, h, stopRecording_no_resolve]
  · exact h

theorem callbackBody_no_resolve (t : Nat → ℚ) (D : ℚ) (n : Nat) (σ : LoopState)
    (h : Event.resolve ∉ σ.events) : Event.resolve ∉ (callbackBody t D n σ).events := by
  unfold callbackBody
  split
  · split
    · simp [List.mem_append, h, startRecording_no_resolve]
    · exact h
  · split
    · exact h
    · dsimp only
      split <;> exact h

theorem frameStep_no_resolve (t : Nat → ℚ) (D : ℚ) (n : Nat) (σ : LoopState)
    (h : Event.resolve ∉ σ.events) : Event.resolve ∉ (frameStep t D n σ).events := by
  unfold frameStep
  dsimp only
  split
  · simpa using callbackBody_no_resolve t D n _ (pendingPhase_no_resolve n σ h)
  · exact pendingPhase_no_resolve n σ h

theorem runLoop_no_resolve (t : Nat → ℚ) (D : ℚ) (n : Nat) (σ : LoopState)
    (h : Event.resolve ∉ σ.events) : Event.resolve ∉ (runLoop t D n σ).events := by
  induction n with
  | zero => exact h
  | succ n ih =>
    have hs : runLoop t D (n + 1) σ = frameStep t D n (runLoop t D n σ) := rfl
    rw [hs]
    exact frameStep_no_resolve t D n _ ih

/-! ## Claim theorems -/

/-- C2: the completion promise of a `recordAnimation` run is resolved only
by the finalization callback, never by the frame-polling loop: the loop
leaves the resolver slot untouched and never emits a resolve effect, and
the finalization callback resolves the stored promise strictly after
assembling the chunks and triggering the download (the resolve effect is
the last entry of its event list, after the download), clearing the slot. -/
theorem resolve_after_finalization (t : Nat → ℚ) (D : ℚ) (n : Nat) (r rf : Recorder) :
    (runLoop t D n (initLoop r)).recorder.currentRecordingResolve =
      r.currentRecordingResolve ∧
    Event.resolve ∉ (runLoop t D n (initLoop r)).events ∧
    (rf.currentRecordingResolve = true →
      onstopHandler rf =
        ({ rf with chunksClosure := [], currentRecordingResolve := false },
         [Event.download rf.chunksClosure
            (deriveFilename rf.gvrm ++ "." ++ fileExtOf rf.mimeType),
          Event.resolve])) := by
  refine ⟨runLoop_resolve_eq t D n (initLoop r), ?_, ?_⟩
  · exact runLoop_no_resolve t D n (initLoop r) (by simp [initLoop])
  · intro h
    unfold onstopHandler
    simp [h]

/-- Witness for C2 at a concrete armed recorder. -/
theorem resolve_after_finalization_witness :
    armedRecorder.currentRecordingResolve = true ∧
    onstopHandler armedRecorder =
      ({ armedRecorder with chunksClosure := [], currentRecordingResolve := false },
       [Event.download armedRecorder.chunksClosure
          (deriveFilename armedRecorder.gvrm ++ "." ++ fileExtOf armedRecorder.mimeType),
        Event.resolve]) :=
  ⟨by decide, (resolve_after_finalization tEx 1 3 recEx armedRecorder).2.2 (by decide)⟩

/-- C3 (code bug evaluation): `startRecording` is claimed to clear any
buffered capture data so that the next finalization assembles only chunks
produced after this start.  The code instead reassigns the never-read
instance property `this.recordedChunks` and leaves the constructor-closure
buffer — the one `ondataavailable` pushes into and `onstop` assembles —
untouched: starting on a supported idle recorder whose closure buffer
still holds a stale chunk `7` keeps that chunk, and after a new chunk `9`
arrives the finalization downloads a blob containing both. -/
theorem startRecording_stale_chunks :
    staleRecorder.isSupported = true ∧ staleRecorder.isRecording = false ∧
    (startRecording staleRecorder).1.chunksClosure = [7] ∧
    (startRecording staleRecorder).1.recordedChunksProp = [] ∧
    (onstopHandler
        (ondataavailable (stopRecording (startRecording staleRecorder).1).1 9)).2 =
      [Event.download [7, 9] "recording.webm"] := by
  refine ⟨by decide, by decide, by decide, by decide, by decide⟩

/-- C4 counterexample: with every probed codec supported, the code
negotiates `video/mp4` — a plain container mime type with no `codecs=`
variant — whereas the preference order stated by the spec (codec-variant
entry first, same container plain second, other container last) would
negotiate `video/webm;codecs=h264`. -/
theorem codec_order_spec_counterexample :
    negotiateMime (fun _ => true) = some "video/mp4" ∧
    specNegotiate (fun _ => true) = some "video/webm;codecs=h264" ∧
    negotiateMime (fun _ => true) ≠ specNegotiate (fun _ => true) ∧
    stringIncludes "video/mp4" "codecs=" = false :=
  ⟨rfl, rfl, by decide, by decide⟩

/-- C4 (amended): the negotiated codec is the first supported entry of the
fixed order `video/mp4`, then `video/webm;codecs=h264`, then `video/webm`;
in particular, when every probed codec is supported the negotiated codec is
the plain MP4 container and the controller is supported. -/
theorem codec_order_code (s : Support) (hm : s.hasMediaRecorder = true)
    (hw : s.isTypeSupported "video/webm" = true) :
    (mkRecorder s).isSupported = true ∧
    (mkRecorder s).mimeType =
      (["video/mp4", "video/webm;codecs=h264", "video/webm"].find? s.isTypeSupported) ∧
    (s.isTypeSupported "video/mp4" = true →
      (mkRecorder s).mimeType = some "video/mp4") := by
  cases h1 : s.isTypeSupported "video/mp4" <;>
    cases h2 : s.isTypeSupported "video/webm;codecs=h264" <;>
      simp [mkRecorder, negotiateMime, emptyRecorder, hm, hw, h1, h2, List.find?]

/-- Witness for C4 (amended) at the all-supported host. -/
theorem codec_order_code_witness :
    (mkRecorder fullSupport).isSupported = true ∧
    (mkRecorder fullSupport).mimeType = some "video/mp4" :=
  ⟨(codec_order_code fullSupport rfl rfl).1,
   (codec_order_code fullSupport rfl rfl).2.2 rfl⟩

/-- C5: `isRecording` changes only on a call matching the current state
(`startRecording` only when supported and idle, `stopRecording` only when
recording), and repeating the same operation is idempotent: the second call
changes no state and performs no outward effect; in particular
`stopRecording` with `isRecording = false` shows no notification and
changes nothing. -/
theorem recording_toggle_idempotent (r : Recorder) :
    startRecording (startRecording r).1 = ((startRecording r).1, []) ∧
    stopRecording (stopRecording r).1 = ((stopRecording r).1, []) ∧
    (r.isRecording = false → stopRecording r = (r, [])) ∧
    (r.isRecording = true → startRecording r = (r, [])) ∧
    ((startRecording r).1.isRecording ≠ r.isRecording →
      r.isSupported = true ∧ r.isRecording = false) ∧
    ((stopRecording r).1.isRecording ≠ r.isRecording →
      r.isSupported = true ∧ r.isRecording = true) := by
  rcases Bool.eq_false_or_eq_true r.isSupported with hs | hs
  · rcases Bool.eq_false_or_eq_true r.isRecording with hr | hr
    · have h1 := startRecording_noop r (Or.inr hr)
      have h2 := stopRecording_fst r hs hr
      refine ⟨by simp [h1], ?_, ?_, fun _ => h1, ?_, fun _ => ⟨hs, hr⟩⟩
      · rw [h2]; exact stopRecording_noop _ (Or.inr rfl)
      · intro h; rw [h] at hr; exact Bool.noConfusion hr
      · intro h; simp [h1] at h
    · have h1 := startRecording_fst r hs hr
      have h2 := stopRecording_noop r (Or.inr hr)
      refine ⟨?_, by simp [h2], fun _ => h2, ?_, fun _ => ⟨hs, hr⟩, ?_⟩
      · rw [h1]; exact startRecording_noop _ (Or.inr rfl)
      · intro h; rw [h] at hr; exact Bool.noConfusion hr
      · intro h; simp [h2] at h
  · have h1 := startRecording_noop r (Or.inl hs)
    have h2 := stopRecording_noop r (Or.inl hs)
    refine ⟨by simp [h1], by simp [h2], fun _ => h2, fun _ => h1, ?_, ?_⟩
    · intro h; simp [h1] at h
    · intro h; simp [h2] at h

/-- Witness for C5 at concrete recorders (idle and recording). -/
theorem recording_toggle_idempotent_witness :
    stopRecording idleRecorder = (idleRecorder, []) ∧
    startRecording recRecorder = (recRecorder, []) ∧
    (idleRecorder.isSupported = true ∧ idleRecorder.isRecording = false) ∧
    (recRecorder.isSupported = true ∧ recRecorder.isRecording = true) :=
  ⟨(recording_toggle_idempotent idleRecorder).2.2.1 (by decide),
   (recording_toggle_idempotent recRecorder).2.2.2.1 (by decide),
   (recording_toggle_idempotent idleRecorder).2.2.2.2.1 (by decide),
   (recording_toggle_idempotent recRecorder).2.2.2.2.2 (by decide)⟩

/-- C6: `recordAnimation` on an unsupported controller, or with no avatar
attached, returns the immediately-resolved result without running the
polling loop and without any outward effect (no capture commands, no
chunks). -/
theorem recordAnimation_noop (r : Recorder) (t : Nat → ℚ) (D : ℚ) (frames : Nat)
    (h : r.isSupported = false ∨ r.gvrm = none) :
    recordAnimation r t D frames =
      { recorder := r, events := [], loopState := none, immediate := true } := by
  unfold recordAnimation
  rcases h with h | h <;> simp [h]

/-- Witness for C6: an unsupported controller, and a supported one with no
avatar attached. -/
theorem recordAnimation_noop_witness :
    recordAnimation (mkRecorder noSupport) (fun _ => 0) 1 5 =
      { recorder := mkRecorder noSupport, events := [], loopState := none,
        immediate := true } ∧
    recordAnimation idleRecorder (fun _ => 0) 1 5 =
      { recorder := idleRecorder, events := [], loopState := none,
        immediate := true } :=
  ⟨recordAnimation_noop _ _ _ _ (Or.inl (by decide)),
   recordAnimation_noop _ _ _ _ (Or.inr (by decide))⟩

/-- C7: filename derivation of the finalization callback: avatar path
`a/sample1.gvrm` with animation path `a/Idle.fbx` gives
`recording_sample1_Idle`; the same avatar with no animation gives
`recording_sample1`; no avatar gives `recording`. -/
theorem filename_derivation :
    deriveFilename (some gvrmEx) = "recording_sample1_Idle" ∧
    deriveFilename (some { fileName := some "a/sample1.gvrm",
                           character := some { animationUrl := none } }) =
      "recording_sample1" ∧
    deriveFilename none = "recording" :=
  ⟨by decide, by decide, rfl⟩

/-- C8: the file extension is determined by the negotiated codec: `mp4`
exactly for the MP4-family container `video/mp4`, and `webm` for both
baseline-container negotiations including the H.264 codec variant. -/
theorem fileext_negotiated (f : String → Bool) (m : String)
    (h : negotiateMime f = some m) :
    fileExtOf (some m) = if m = "video/mp4" then "mp4" else "webm" := by
  unfold negotiateMime at h
  split at h
  · injection h with h; subst h; decide
  · split at h
    · injection h with h; subst h; decide
    · split at h
      · injection h with h; subst h; decide
      · cases h

/-- Witness for C8 at all three negotiable codecs. -/
theorem fileext_negotiated_witness :
    fileExtOf (some "video/mp4") = "mp4" ∧
    fileExtOf (some "video/webm;codecs=h264") = "webm" ∧
    fileExtOf (some "video/webm") = "webm" :=
  ⟨by
    have h := fileext_negotiated (fun _ => true) "video/mp4" (by decide)
    simpa using h,
   by
    have h := fileext_negotiated (fun m => m == "video/webm;codecs=h264")
      "video/webm;codecs=h264" (by decide)
    simpa using h,
   by
    have h := fileext_negotiated (fun m => m == "video/webm") "video/webm" (by decide)
    simpa using h⟩

/-- C9: when the finalization callback fires with no pending completion
promise stored, it still assembles the chunks and triggers the download,
skips the resolve step (no resolve effect), and leaves the slot empty. -/
theorem finalization_race (r : Recorder) (h : r.currentRecordingResolve = false) :
    onstopHandler r =
      ({ r with chunksClosure := [] },
       [Event.download r.chunksClosure
          (deriveFilename r.gvrm ++ "." ++ fileExtOf r.mimeType)]) := by
  unfold onstopHandler
  simp [h]

/-- Witness for C9 at a concrete recorder with an empty slot. -/
theorem finalization_race_witness :
    onstopHandler staleRecorder =
      ({ staleRecorder with chunksClosure := [] },
       [Event.download staleRecorder.chunksClosure
          (deriveFilename staleRecorder.gvrm ++ "." ++
            fileExtOf staleRecorder.mimeType)]) :=
  finalization_race staleRecorder (by decide)

/-- C10: if the probe reports `video/webm` unsupported, the constructor
ends with `isSupported = false` before codec negotiation, and every public
recording operation is a no-op — even when `video/mp4` itself is
supported. -/
theorem webm_precondition (s : Support) (h : s.isTypeSupported "video/webm" = false) :
    (mkRecorder s).isSupported = false ∧
    startRecording (mkRecorder s) = (mkRecorder s, []) ∧
    stopRecording (mkRecorder s) = (mkRecorder s, []) ∧
    toggleRecording (mkRecorder s) = (mkRecorder s, []) ∧
    ∀ (t : Nat → ℚ) (D : ℚ) (frames : Nat),
      recordAnimation (mkRecorder s) t D frames =
        { recorder := mkRecorder s, events := [], loopState := none,
          immediate := true } := by
  have hm : mkRecorder s = emptyRecorder := by
    unfold mkRecorder
    simp [h]
  rw [hm]
  exact ⟨rfl, rfl, rfl, rfl, fun t D frames => rfl⟩

/-- Witness for C10 at a host supporting only `video/mp4`. -/
theorem webm_precondition_witness :
    mp4OnlySupport.isTypeSupported "video/mp4" = true ∧
    (mkRecorder mp4OnlySupport).isSupported = false ∧
    recordAnimation (mkRecorder mp4OnlySupport) (fun _ => 0) 1 5 =
      { recorder := mkRecorder mp4OnlySupport, events := [], loopState := none,
        immediate := true } :=
  ⟨by decide, (webm_precondition mp4OnlySupport (by decide)).1,
   (webm_precondition mp4OnlySupport (by decide)).2.2.2.2 (fun _ => 0) 1 5⟩




theorem pendingPhase_id (n : Nat) (σ : LoopState) (h : σ.stopPending = false) :
    pendingPhase n σ = σ := by
  unfold pendingPhase
  simp [h]

theorem pendingPhase_fire_none (n : Nat) (σ : LoopState) (hp : σ.stopPending = true)
    (he : σ.stopExecFrame = none) :
    pendingPhase n σ =
      { σ with recorder := (stopRecording σ.recorder).1,
               events := σ.events ++ (stopRecording σ.recorder).2,
               recordingFinished := true, stopPending := false,
               stopExecFrame := some n } := by
  unfold pendingPhase
  simp [hp, he]

theorem pendingPhase_fire_some (n : Nat) (σ : LoopState) (hp : σ.stopPending = true)
    (e : Nat) (he : σ.stopExecFrame = some e) :
    pendingPhase n σ =
      { σ with recorder := (stopRecording σ.recorder).1,
               events := σ.events ++ (stopRecording σ.recorder).2,
               recordingFinished := true, stopPending := false } := by
  unfold pendingPhase
  simp [hp, he]

theorem pendingPhase_callbackActive (n : Nat) (σ : LoopState) :
    (pendingPhase n σ).callbackActive = σ.callbackActive := by
  unfold pendingPhase
  split <;> rfl

theorem callbackBody_start (t : Nat → ℚ) (D : ℚ) (n : Nat) (σ : LoopState)
    (hr1 : σ.recording1Started = false) (hc : t n + 1/60 ≥ D) :
    callbackBody t D n σ =
      { σ with recorder := (startRecording σ.recorder).1,
               events := σ.events ++ (startRecording σ.recorder).2,
               recording1Started := true, startFrame := some n } := by
  unfold callbackBody
  simp only [hr1, Bool.not_false, if_true]
  rw [if_pos hc]

theorem callbackBody_wait (t : Nat → ℚ) (D : ℚ) (n : Nat) (σ : LoopState)
    (hr1 : σ.recording1Started = false) (hc : ¬ (t n + 1/60 ≥ D)) :
    callbackBody t D n σ = σ := by
  unfold callbackBody
  simp only [hr1, Bool.not_false, if_true]
  rw [if_neg hc]

theorem callbackBody_arm (t : Nat → ℚ) (D : ℚ) (n : Nat) (σ : LoopState)
    (hr1 : σ.recording1Started = true) (hr2 : σ.recording2Started = false) :
    callbackBody t D n σ = { σ with recording2Started := true } := by
  unfold callbackBody
  simp [hr1, hr2]

theorem callbackBody_count (t : Nat → ℚ) (D : ℚ) (n : Nat) (σ : LoopState)
    (hr1 : σ.recording1Started = true) (hr2 : σ.recording2Started = true)
    (hng : ¬ ((t n + 1/60 ≥ D) ∧ 5 < σ.frameCount2 + 1)) :
    callbackBody t D n σ = { σ with frameCount2 := σ.frameCount2 + 1 } := by
  unfold callbackBody
  simp only [hr1, hr2, Bool.not_true, Bool.false_eq_true, if_false]
  rw [if_neg hng]

theorem callbackBody_sched_new (t : Nat → ℚ) (D : ℚ) (n : Nat) (σ : LoopState)
    (hr1 : σ.recording1Started = true) (hr2 : σ.recording2Started = true)
    (hcc : (t n + 1/60 ≥ D) ∧ 5 < σ.frameCount2 + 1)
    (hsch : σ.scheduleFrame = none) :
    callbackBody t D n σ =
      { σ with frameCount2 := σ.frameCount2 + 1, stopPending := true,
               scheduleFrame := some n } := by
  unfold callbackBody
  simp only [hr1, hr2, Bool.not_true, Bool.false_eq_true, if_false]
  rw [if_pos hcc]
  simp [hsch]

theorem callbackBody_sched_old (t : Nat → ℚ) (D : ℚ) (n : Nat) (σ : LoopState)
    (hr1 : σ.recording1Started = true) (hr2 : σ.recording2Started = true)
    (hcc : (t n + 1/60 ≥ D) ∧ 5 < σ.frameCount2 + 1)
    (m : Nat) (hsch : σ.scheduleFrame = some m) :
    callbackBody t D n σ =
      { σ with frameCount2 := σ.frameCount2 + 1, stopPending := true } := by
  unfold callbackBody
  simp only [hr1, hr2, Bool.not_true, Bool.false_eq_true, if_false]
  rw [if_pos hcc]
  simp [hsch]

theorem frameStep_active (t : Nat → ℚ) (D : ℚ) (n : Nat) (σ : LoopState)
    (h : σ.callbackActive = true) :
    frameStep t D n σ =
      { callbackBody t D n (pendingPhase n σ) with
        callbackActive := !(callbackBody t D n (pendingPhase n σ)).recordingFinished } := by
  unfold frameStep
  dsimp only
  rw [if_pos (by rw [pendingPhase_callbackActive, h])]

theorem frameStep_inactive (t : Nat → ℚ) (D : ℚ) (n : Nat) (σ : LoopState)
    (h : σ.callbackActive = false) :
    frameStep t D n σ = pendingPhase n σ := by
  unfold frameStep
  dsimp only
  rw [if_neg (by simp [pendingPhase_callbackActive, h])]



theorem frameStep_inv (t : Nat → ℚ) (D : ℚ) (n : Nat) (σ : LoopState)
    (H : LoopInv t D n σ) : LoopInv t D (n + 1) (frameStep t D n σ) := by
  obtain ⟨h1, h2, h3, h4, h5, h6, h7, h8, h9⟩ := H
  rcases Bool.eq_false_or_eq_true σ.stopPending with hp | hp
  · -- a deferred stop closure fires this frame
    have hschS : ∃ s0, σ.scheduleFrame = some s0 := by
      have hi := h5 hp
      cases hq : σ.scheduleFrame with
      | some s0 => exact ⟨s0, rfl⟩
      | none => rw [hq] at hi; cases hi
    obtain ⟨s0, hsch0⟩ := hschS
    obtain ⟨hs0n, hcs0, k0, hsf0, hk70⟩ := h4 s0 hsch0
    have hr1 : σ.recording1Started = true := by rw [h1, hsf0]; rfl
    obtain ⟨hk0_lt, hk0_cond, hk0_min, hk0_iff, hk0_cnt0, hk0_cntb⟩ := h3 k0 hsf0
    have hr2 : σ.recording2Started = true := hk0_iff.mpr (by omega)
    have hcnt := hk0_cntb hr2
    cases hseq : σ.stopExecFrame with
    | none =>
      obtain ⟨_, hs0n1⟩ := h6 s0 hsch0 hseq
      have hca : σ.callbackActive = true := by
        rcases Bool.eq_false_or_eq_true σ.callbackActive with h | h
        · exact h
        · have hi := h8 (h9 h); rw [hseq] at hi; cases hi
      have hPP := pendingPhase_fire_none n σ hp hseq
      by_cases hcc : (t n + 1/60 ≥ D) ∧ 5 < σ.frameCount2 + 1
      · have hCB := callbackBody_sched_old t D n (pendingPhase n σ)
          (by rw [hPP]; exact hr1) (by rw [hPP]; exact hr2)
          (by rw [hPP]; exact hcc) s0 (by rw [hPP]; exact hsch0)
        rw [frameStep_active t D n σ hca, hCB, hPP]
        refine ⟨h1, ?_, ?_, ?_, ?_, ?_, ?_, fun _ => rfl, fun _ => rfl⟩
        · intro h; dsimp only at h; rw [hsf0] at h; cases h
        · intro k hk
          dsimp only at hk; rw [hsf0] at hk; injection hk with hk; subst hk
          refine ⟨by omega, hk0_cond, hk0_min, ?_, ?_, fun _ => by dsimp only; omega⟩
          · dsimp only; rw [hr2]; simp; omega
          · intro h; dsimp only at h; rw [hr2] at h; cases h
        · intro s hs
          dsimp only at hs
          obtain ⟨ha, hb, k1, hk1, hk7⟩ := h4 s hs
          exact ⟨by omega, hb, k1, hk1, hk7⟩
        · intro _; dsimp only; rw [hsch0]; rfl
        · intro s hs he; dsimp only at he; cases he
        · intro e he
          dsimp only at he; injection he with he
          exact ⟨s0, hsch0, by omega, by omega⟩
      · have hCB := callbackBody_count t D n (pendingPhase n σ)
          (by rw [hPP]; exact hr1) (by rw [hPP]; exact hr2) (by rw [hPP]; exact hcc)
        rw [frameStep_active t D n σ hca, hCB, hPP]
        refine ⟨h1, ?_, ?_, ?_, ?_, ?_, ?_, fun _ => rfl, fun _ => rfl⟩
        · intro h; dsimp only at h; rw [hsf0] at h; cases h
        · intro k hk
          dsimp only at hk; rw [hsf0] at hk; injection hk with hk; subst hk
          refine ⟨by omega, hk0_cond, hk0_min, ?_, ?_, fun _ => by dsimp only; omega⟩
          · dsimp only; rw [hr2]; simp; omega
          · intro h; dsimp only at h; rw [hr2] at h; cases h
        · intro s hs
          dsimp only at hs
          obtain ⟨ha, hb, k1, hk1, hk7⟩ := h4 s hs
          exact ⟨by omega, hb, k1, hk1, hk7⟩
        · intro h; dsimp only at h; cases h
        · intro s hs he; dsimp only at he; cases he
        · intro e he
          dsimp only at he; injection he with he
          exact ⟨s0, hsch0, by omega, by omega⟩
    | some e0 =>
      obtain ⟨s1, hs1, he01, he0n⟩ := h7 e0 hseq
      have hPP := pendingPhase_fire_some n σ hp e0 hseq
      rcases Bool.eq_false_or_eq_true σ.callbackActive with hca | hca
      · by_cases hcc : (t n + 1/60 ≥ D) ∧ 5 < σ.frameCount2 + 1
        · have hCB := callbackBody_sched_old t D n (pendingPhase n σ)
            (by rw [hPP]; exact hr1) (by rw [hPP]; exact hr2)
            (by rw [hPP]; exact hcc) s0 (by rw [hPP]; exact hsch0)
          rw [frameStep_active t D n σ hca, hCB, hPP]
          refine ⟨h1, ?_, ?_, ?_, ?_, ?_, ?_, ?_, fun _ => rfl⟩
          · intro h; dsimp only at h; rw [hsf0] at h; cases h
          · intro k hk
            dsimp only at hk; rw [hsf0] at hk; injection hk with hk; subst hk
            refine ⟨by omega, hk0_cond, hk0_min, ?_, ?_, fun _ => by dsimp only; omega⟩
            · dsimp only; rw [hr2]; simp; omega
            · intro h; dsimp only at h; rw [hr2] at h; cases h
          · intro s hs
            dsimp only at hs
            obtain ⟨ha, hb, k1, hk1, hk7⟩ := h4 s hs
            exact ⟨by omega, hb, k1, hk1, hk7⟩
          · intro _; dsimp only; rw [hsch0]; rfl
          · intro s hs he; dsimp only at he; rw [hseq] at he; cases he
          · intro e he
            dsimp only at he
            obtain ⟨s2, ha, hb, hc2⟩ := h7 e he
            exact ⟨s2, ha, hb, by omega⟩
          · intro _; dsimp only; rw [hseq]; rfl
        · have hCB := callbackBody_count t D n (pendingPhase n σ)
            (by rw [hPP]; exact hr1) (by rw [hPP]; exact hr2) (by rw [hPP]; exact hcc)
          rw [frameStep_active t D n σ hca, hCB, hPP]
          refine ⟨h1, ?_, ?_, ?_, ?_, ?_, ?_, ?_, fun _ => rfl⟩
          · intro h; dsimp only at h; rw [hsf0] at h; cases h
          · intro k hk
            dsimp only at hk; rw [hsf0] at hk; injection hk with hk; subst hk
            refine ⟨by omega, hk0_cond, hk0_min, ?_, ?_, fun _ => by dsimp only; omega⟩
            · dsimp only; rw [hr2]; simp; omega
            · intro h; dsimp only at h; rw [hr2] at h; cases h
          · intro s hs
            dsimp only at hs
            obtain ⟨ha, hb, k1, hk1, hk7⟩ := h4 s hs
            exact ⟨by omega, hb, k1, hk1, hk7⟩
          · intro h; dsimp only at h; cases h
          · intro s hs he; dsimp only at he; rw [hseq] at he; cases he
          · intro e he
            dsimp only at he
            obtain ⟨s2, ha, hb, hc2⟩ := h7 e he
            exact ⟨s2, ha, hb, by omega⟩
          · intro _; dsimp only; rw [hseq]; rfl
      · rw [frameStep_inactive t D n σ hca, hPP]
        refine ⟨h1, ?_, ?_, ?_, ?_, ?_, ?_, ?_, fun _ => rfl⟩
        · intro h; dsimp only at h; rw [hsf0] at h; cases h
        · intro k hk
          dsimp only at hk; rw [hsf0] at hk; injection hk with hk; subst hk
          refine ⟨by omega, hk0_cond, hk0_min, ?_, ?_, fun _ => by dsimp only; omega⟩
          · dsimp only; rw [hr2]; simp; omega
          · intro h; dsimp only at h; rw [hr2] at h; cases h
        · intro s hs
          dsimp only at hs
          obtain ⟨ha, hb, k1, hk1, hk7⟩ := h4 s hs
          exact ⟨by omega, hb, k1, hk1, hk7⟩
        · intro h; dsimp only at h; cases h
        · intro s hs he; dsimp only at he; rw [hseq] at he; cases he
        · intro e he
          dsimp only at he
          obtain ⟨s2, ha, hb, hc2⟩ := h7 e he
          exact ⟨s2, ha, hb, by omega⟩
        · intro _; dsimp only; rw [hseq]; rfl
  · -- no deferred stop pending this frame
    have hPP := pendingPhase_id n σ hp
    rcases Bool.eq_false_or_eq_true σ.callbackActive with hca | hca
    · cases hsf : σ.startFrame with
      | none =>
        obtain ⟨e1, e2, e3, e4, e5, e6, e7, e8⟩ := h2 hsf
        have hr1 : σ.recording1Started = false := by rw [h1, hsf]; rfl
        by_cases hc : t n + 1/60 ≥ D
        · rw [frameStep_active t D n σ hca, hPP, callbackBody_start t D n σ hr1 hc]
          refine ⟨by simp, ?_, ?_, ?_, ?_, ?_, ?_, ?_, ?_⟩
          · intro h; dsimp only at h; cases h
          · intro k hk
            dsimp only at hk; injection hk with hk; subst hk
            refine ⟨by omega, hc, e8, ?_, fun _ => e2, ?_⟩
            · dsimp only; rw [e1]
              constructor
              · intro h; cases h
              · intro h; exact absurd h (by omega)
            · intro h; dsimp only at h; rw [e1] at h; cases h
          · intro s hs; dsimp only at hs; rw [e4] at hs; cases hs
          · intro h; dsimp only at h; rw [e3] at h; cases h
          · intro s hs he; dsimp only at hs; rw [e4] at hs; cases hs
          · intro e he; dsimp only at he; rw [e5] at he; cases he
          · intro h; dsimp only at h; rw [e6] at h; cases h
          · intro h; dsimp only at h; rw [e6] at h; cases h
        · rw [frameStep_active t D n σ hca, hPP, callbackBody_wait t D n σ hr1 hc]
          refine ⟨h1, ?_, ?_, ?_, ?_, ?_, ?_, ?_, ?_⟩
          · intro h
            dsimp only at h
            refine ⟨e1, e2, e3, e4, e5, e6, by dsimp only; rw [e6]; rfl, ?_⟩
            intro j hj
            rcases Nat.lt_succ_iff_lt_or_eq.mp hj with hj | hj
            · exact e8 j hj
            · rw [hj]; exact hc
          · intro k hk; dsimp only at hk; rw [hsf] at hk; cases hk
          · intro s hs; dsimp only at hs; rw [e4] at hs; cases hs
          · intro h; dsimp only at h; rw [e3] at h; cases h
          · intro s hs he; dsimp only at hs; rw [e4] at hs; cases hs
          · intro e he; dsimp only at he; rw [e5] at he; cases he
          · intro h; dsimp only at h; rw [e6] at h; cases h
          · intro h; dsimp only at h; rw [e6] at h; cases h
      | some k =>
        obtain ⟨hk_lt, hk_cond, hk_min, hk_iff, hk_cnt0, hk_cntb⟩ := h3 k hsf
        have hr1 : σ.recording1Started = true := by rw [h1, hsf]; rfl
        rcases Bool.eq_false_or_eq_true σ.recording2Started with hr2 | hr2
        · -- counting settle frames
          have hk2n : k + 2 ≤ n := hk_iff.mp hr2
          have hcnt := hk_cntb hr2
          by_cases hcc : (t n + 1/60 ≥ D) ∧ 5 < σ.frameCount2 + 1
          · cases hsch0 : σ.scheduleFrame with
            | none =>
              rw [frameStep_active t D n σ hca, hPP,
                  callbackBody_sched_new t D n σ hr1 hr2 hcc hsch0]
              refine ⟨h1, ?_, ?_, ?_, fun _ => rfl, ?_, ?_, ?_, ?_⟩
              · intro h; dsimp only at h; rw [hsf] at h; cases h
              · intro k1 hk1
                dsimp only at hk1; rw [hsf] at hk1; injection hk1 with hk1; subst hk1
                refine ⟨by omega, hk_cond, hk_min, ?_, ?_, fun _ => by dsimp only; omega⟩
                · dsimp only; rw [hr2]; simp; omega
                · intro h; dsimp only at h; rw [hr2] at h; cases h
              · intro s hs
                dsimp only at hs; injection hs with hs; subst hs
                exact ⟨by omega, hcc.1, k, hsf, by omega⟩
              · intro s hs he
                dsimp only at hs he
                injection hs with hs
                exact ⟨rfl, by omega⟩
              · intro e he
                dsimp only at he
                obtain ⟨s2, ha, hb, hc2⟩ := h7 e he
                rw [hsch0] at ha; cases ha
              · intro h; dsimp only at h; exact h8 h
              · intro h; dsimp only at h; simp at h; exact h
            | some m =>
              have hseS : ∃ e1, σ.stopExecFrame = some e1 := by
                cases hq : σ.stopExecFrame with
                | some e1 => exact ⟨e1, rfl⟩
                | none =>
                  obtain ⟨hpend, _⟩ := h6 m hsch0 hq
                  rw [hp] at hpend; cases hpend
              obtain ⟨e1, hse⟩ := hseS
              rw [frameStep_active t D n σ hca, hPP,
                  callbackBody_sched_old t D n σ hr1 hr2 hcc m hsch0]
              refine ⟨h1, ?_, ?_, ?_, ?_, ?_, ?_, ?_, ?_⟩
              · intro h; dsimp only at h; rw [hsf] at h; cases h
              · intro k1 hk1
                dsimp only at hk1; rw [hsf] at hk1; injection hk1 with hk1; subst hk1
                refine ⟨by omega, hk_cond, hk_min, ?_, ?_, fun _ => by dsimp only; omega⟩
                · dsimp only; rw [hr2]; simp; omega
                · intro h; dsimp only at h; rw [hr2] at h; cases h
              · intro s hs
                dsimp only at hs
                obtain ⟨ha, hb, k1, hk1, hk7⟩ := h4 s hs
                exact ⟨by omega, hb, k1, hk1, hk7⟩
              · intro _; dsimp only; rw [hsch0]; rfl
              · intro s hs he; dsimp only at he; rw [hse] at he; cases he
              · intro e he
                dsimp only at he
                obtain ⟨s2, ha, hb, hc2⟩ := h7 e he
                exact ⟨s2, ha, hb, by omega⟩
              · intro h; dsimp only at h; exact h8 h
              · intro h; dsimp only at h; simp at h; exact h
          · rw [frameStep_active t D n σ hca, hPP,
                callbackBody_count t D n σ hr1 hr2 hcc]
            refine ⟨h1, ?_, ?_, ?_, ?_, ?_, ?_, ?_, ?_⟩
            · intro h; dsimp only at h; rw [hsf] at h; cases h
            · intro k1 hk1
              dsimp only at hk1; rw [hsf] at hk1; injection hk1 with hk1; subst hk1
              refine ⟨by omega, hk_cond, hk_min, ?_, ?_, fun _ => by dsimp only; omega⟩
              · dsimp only; rw [hr2]; simp; omega
              · intro h; dsimp only at h; rw [hr2] at h; cases h
            · intro s hs
              dsimp only at hs
              obtain ⟨ha, hb, k1, hk1, hk7⟩ := h4 s hs
              exact ⟨by omega, hb, k1, hk1, hk7⟩
            · intro h; dsimp only at h; rw [hp] at h; cases h
            · intro s hs he
              dsimp only at hs he
              obtain ⟨hpend, _⟩ := h6 s hs he
              rw [hp] at hpend; cases hpend
            · intro e he
              dsimp only at he
              obtain ⟨s2, ha, hb, hc2⟩ := h7 e he
              exact ⟨s2, ha, hb, by omega⟩
            · intro h; dsimp only at h; exact h8 h
            · intro h; dsimp only at h; simp at h; exact h
        · -- the arming frame right after capture started
          have hkn : ¬ (k + 2 ≤ n) := by
            intro hh
            have h2' := hk_iff.mpr hh
            rw [h2'] at hr2; cases hr2
          have hn : n = k + 1 := by omega
          have hsch : σ.scheduleFrame = none := by
            cases hq : σ.scheduleFrame with
            | none => rfl
            | some s =>
              obtain ⟨ha, _, k1, hk1, hk7⟩ := h4 s hq
              rw [hsf] at hk1; injection hk1 with hk1
              exfalso; omega
          have hse : σ.stopExecFrame = none := by
            cases hq : σ.stopExecFrame with
            | none => rfl
            | some e =>
              obtain ⟨s, hs, _, _⟩ := h7 e hq
              rw [hsch] at hs; cases hs
          have hfin : σ.recordingFinished = false := by
            rcases Bool.eq_false_or_eq_true σ.recordingFinished with hf | hf
            · have hi := h8 hf; rw [hse] at hi; cases hi
            · exact hf
          rw [frameStep_active t D n σ hca, hPP, callbackBody_arm t D n σ hr1 hr2]
          refine ⟨h1, ?_, ?_, ?_, ?_, ?_, ?_, ?_, ?_⟩
          · intro h; dsimp only at h; rw [hsf] at h; cases h
          · intro k1 hk1
            dsimp only at hk1; rw [hsf] at hk1; injection hk1 with hk1; subst hk1
            refine ⟨by omega, hk_cond, hk_min, ?_, ?_, ?_⟩
            · dsimp only; simp; omega
            · intro h; dsimp only at h; cases h
            · intro _
              dsimp only
              have hc0 := hk_cnt0 hr2
              omega
          · intro s hs; dsimp only at hs; rw [hsch] at hs; cases hs
          · intro h; dsimp only at h; rw [hp] at h; cases h
          · intro s hs he; dsimp only at hs; rw [hsch] at hs; cases hs
          · intro e he; dsimp only at he; rw [hse] at he; cases he
          · intro h; dsimp only at h; rw [hfin] at h; cases h
          · intro h; dsimp only at h; rw [hfin] at h; cases h
    · -- the frame callback is no longer registered
      rw [frameStep_inactive t D n σ hca, hPP]
      have hfin := h9 hca
      have hsome := h8 hfin
      have hseS : ∃ e0, σ.stopExecFrame = some e0 := by
        cases hq : σ.stopExecFrame with
        | some e0 => exact ⟨e0, rfl⟩
        | none => rw [hq] at hsome; cases hsome
      obtain ⟨e0, hse⟩ := hseS
      obtain ⟨s0, hs0, he0, he0n⟩ := h7 e0 hse
      obtain ⟨hs0n, hcs0, k0, hsf0, hk70⟩ := h4 s0 hs0
      refine ⟨h1, ?_, ?_, ?_, ?_, ?_, ?_, h8, fun _ => hfin⟩
      · intro h; rw [h] at hsf0; cases hsf0
      · intro k hk
        obtain ⟨hk_lt, hk_cond, hk_min, hk_iff, hk_cnt0, hk_cntb⟩ := h3 k hk
        have hkk : k = k0 := by rw [hk] at hsf0; exact Option.some.inj hsf0
        have hk2 : k + 2 ≤ n := by omega
        have hr2 : σ.recording2Started = true := hk_iff.mpr hk2
        refine ⟨by omega, hk_cond, hk_min, ?_, ?_, fun _ => by have := hk_cntb hr2; omega⟩
        · rw [hr2]; simp; omega
        · intro h; rw [hr2] at h; cases h
      · intro s hs
        obtain ⟨ha, hb, k1, hk1, hk7⟩ := h4 s hs
        exact ⟨by omega, hb, k1, hk1, hk7⟩
      · intro h; rw [hp] at h; cases h
      · intro s hs he
        obtain ⟨hpend, _⟩ := h6 s hs he
        rw [hp] at hpend; cases hpend
      · intro e he
        obtain ⟨s2, ha, hb, hc2⟩ := h7 e he
        exact ⟨s2, ha, hb, by omega⟩



theorem initLoop_inv (t : Nat → ℚ) (D : ℚ) (r : Recorder) :
    LoopInv t D 0 (initLoop r) := by
  refine ⟨rfl, ?_, ?_, ?_, ?_, ?_, ?_, ?_, ?_⟩
  · intro _
    exact ⟨rfl, rfl, rfl, rfl, rfl, rfl, rfl, fun j hj => absurd hj (by omega)⟩
  · intro k hk; cases hk
  · intro s hs; cases hs
  · intro h; cases h
  · intro s hs _; cases hs
  · intro e he; cases he
  · intro h; cases h
  · intro h; cases h

theorem runLoop_inv (t : Nat → ℚ) (D : ℚ) (r : Recorder) (n : Nat) :
    LoopInv t D n (runLoop t D n (initLoop r)) := by
  induction n with
  | zero => exact initLoop_inv t D r
  | succ n ih => exact frameStep_inv t D n _ ih

/-- C1: timing of the `recordAnimation` state machine over any clock trace
`t` and clip duration `D`: (1) capture starts exactly on the first polled
frame `k` at which the look-ahead `t k + 1/60 ≥ D` holds — soundness and
completeness; (2) the deferred stop is first registered on a frame `s` no
earlier than `settleThreshold + 2` frames after the start frame
(threshold 5, so `s ≥ k + 7`) and only on a frame where the same look-ahead
condition holds again; (3) `stopRecording` itself runs one frame after
that registration. -/
theorem recordAnimation_timing (t : Nat → ℚ) (D : ℚ) (r : Recorder) (n : Nat) :
    (∀ k, (runLoop t D n (initLoop r)).startFrame = some k →
        (t k + 1/60 ≥ D) ∧ ∀ j, j < k → ¬ (t j + 1/60 ≥ D)) ∧
    (∀ k, k < n → (t k + 1/60 ≥ D) → (∀ j, j < k → ¬ (t j + 1/60 ≥ D)) →
        (runLoop t D n (initLoop r)).startFrame = some k) ∧
    (∀ k s, (runLoop t D n (initLoop r)).startFrame = some k →
        (runLoop t D n (initLoop r)).scheduleFrame = some s →
        k + 5 + 2 ≤ s ∧ (t s + 1/60 ≥ D)) ∧
    (∀ e, (runLoop t D n (initLoop r)).stopExecFrame = some e →
        (runLoop t D n (initLoop r)).scheduleFrame = some (e - 1) ∧ 1 ≤ e) := by
  have H := runLoop_inv t D r n
  refine ⟨?_, ?_, ?_, ?_⟩
  · intro k hk
    obtain ⟨_, hc, hmin, _⟩ := H.start_spec k hk
    exact ⟨hc, hmin⟩
  · intro k hkn hc hmin
    cases hq : (runLoop t D n (initLoop r)).startFrame with
    | none =>
      obtain ⟨_, _, _, _, _, _, _, hnone⟩ := H.before_start hq
      exact absurd hc (hnone k hkn)
    | some k0 =>
      obtain ⟨_, hc0, hmin0, _⟩ := H.start_spec k0 hq
      have hkk : k = k0 := by
        rcases Nat.lt_trichotomy k k0 with h | h | h
        · exact absurd hc (hmin0 k h)
        · exact h
        · exact absurd hc0 (hmin k0 h)
      rw [hkk]
  · intro k s hk hs
    obtain ⟨_, hcs, k0, hk0, h7s⟩ := H.sched_spec s hs
    rw [hk] at hk0
    have hkk := Option.some.inj hk0
    exact ⟨by omega, hcs⟩
  · intro e he
    obtain ⟨s, hs, hes, _⟩ := H.exec_spec e he
    have hs' : e - 1 = s := by omega
    rw [hs']
    exact ⟨hs, by omega⟩

/-- Witness for C1 on the concrete 6-frame looping clock `tEx` with clip
duration `1/10`: capture starts on frame 5 (the first frame whose
look-ahead crosses the clip end), the stop is registered on frame 17
(which is at least `5 + 7` and hits the look-ahead again), and the stop
runs on frame 18. -/
theorem recordAnimation_timing_witness :
    (runLoop tEx (1/10) 20 (initLoop recEx)).startFrame = some 5 ∧
    (runLoop tEx (1/10) 20 (initLoop recEx)).scheduleFrame = some 17 ∧
    (runLoop tEx (1/10) 20 (initLoop recEx)).stopExecFrame = some 18 ∧
    (5 + 5 + 2 ≤ 17 ∧ (tEx 17 + 1/60 ≥ (1/10 : ℚ))) ∧
    ((runLoop tEx (1/10) 20 (initLoop recEx)).scheduleFrame = some (18 - 1) ∧ 1 ≤ 18) :=
  ⟨by with_unfolding_all decide, by with_unfolding_all decide,
   by with_unfolding_all decide,
   (recordAnimation_timing tEx (1/10) recEx 20).2.2.1 5 17
     (by with_unfolding_all decide) (by with_unfolding_all decide),
   (recordAnimation_timing tEx (1/10) recEx 20).2.2.2 18
     (by with_unfolding_all decide)⟩

end GaussianVRM
